import Mathlib

/-!
Shallow embedding of the apollo_pydantic repository
(src/apollo_pydantic/core.py and src/apollo_pydantic/client.py).

Python dictionaries that are only ever used with unique keys are modelled
as association lists; `os.environ` is an association list with
last-writer-wins updates; asyncio rounds become pure step functions that
take the network responses (long poll result, per-namespace fetch result)
and the external pydantic validator as oracle arguments.
-/

namespace Apollo

/-- Association list lookup, first match wins (Python dict lookup; all the
dicts modelled here keep their keys unique). -/
def lookupA {α β : Type} [DecidableEq α] : List (α × β) → α → Option β
  | [], _ => none
  | (k, v) :: t, k' => if k = k' then some v else lookupA t k'

/-- Association list update: replace the first entry with the given key, or
append a fresh entry at the end (Python dict item assignment, which keeps
insertion order). -/
def setA {α β : Type} [DecidableEq α] : List (α × β) → α → β → List (α × β)
  | [], k, v => [(k, v)]
  | (k', v') :: t, k, v => if k' = k then (k, v) :: t else (k', v') :: setA t k v

/-! ## Key Flattener (core.py, `_update_instances` environment writes) -/

/-- Character class of the `name` group of `ARRAY_RE`, the regex
`^(?P<name>[\w\-_\.]+)\[(?P<index>\d+)\]$` in core.py line 27: word
characters (ASCII letters, digits, underscore), dash and dot. -/
def wordClass (c : Char) : Bool :=
  c.isAlphanum || c = '_' || c = '-' || c = '.'

/-- Character-level replacement of every dot by the delimiter characters. -/
def dotReplaceChars (delim : List Char) : List Char → List Char
  | [] => []
  | c :: cs =>
    if c = '.' then delim ++ dotReplaceChars delim cs
    else c :: dotReplaceChars delim cs

/-- Python `k.replace(".", delim)`: every dot replaced by the configured
nested delimiter. -/
def dotReplace (k delim : String) : String :=
  String.mk (dotReplaceChars delim.toList k.toList)

/-- Decimal digit string to Nat, as Python `int` applied to the digits
captured by the regex index group. -/
def digitsToNat (ds : List Char) : Nat :=
  ds.foldl (fun a c => a * 10 + (c.toNat - 48)) 0

/-- Model of `ARRAY_RE.match(key)`: the key matches exactly when it is
`name[index]` with a non-empty `name` drawn from the regex character class
and a non-empty decimal `index`, possibly followed by one trailing newline
(Python `$` matches before a final newline). Returns the name group and
the parsed index. -/
def ARRAY_RE_match (s : String) : Option (String × Nat) :=
  let cs := s.toList
  let name := cs.takeWhile (fun c => c ≠ '[')
  let rest := cs.dropWhile (fun c => c ≠ '[')
  match rest with
  | '[' :: rest2 =>
    let digits := rest2.takeWhile Char.isDigit
    let tl := rest2.dropWhile Char.isDigit
    if name ≠ [] && name.all wordClass && digits ≠ [] &&
        (tl = [']'] || tl = [']', '\n']) then
      some (String.mk name, digitsToNat digits)
    else
      none
  | _ => none

/-- Python string strict order: lexicographic on code points. -/
def charListLt : List Char → List Char → Bool
  | [], [] => false
  | [], _ :: _ => true
  | _ :: _, [] => false
  | a :: as, b :: bs =>
    if a.toNat < b.toNat then true
    else if a.toNat = b.toNat then charListLt as bs
    else false

/-- Python tuple comparison `(i, v) <= (j, w)` on (int, str) pairs:
lexicographic, the string compared by code points (a ≤ b iff not b < a). -/
def pyLe (a b : Nat × String) : Bool :=
  if a.1 < b.1 then true
  else if a.1 = b.1 then ! charListLt b.2.toList a.2.toList
  else false

/-- Stable insertion used to model Python `sorted` (ties keep the earlier
element first). -/
def insertSorted (x : Nat × String) : List (Nat × String) → List (Nat × String)
  | [] => [x]
  | y :: ys => if pyLe x y then x :: y :: ys else y :: insertSorted x ys

/-- Model of Python `sorted(vs)` on a list of (index, value) tuples:
ascending lexicographic tuple order, stable. -/
def pySorted : List (Nat × String) → List (Nat × String)
  | [] => []
  | x :: xs => insertSorted x (pySorted xs)

/-- Hexadecimal digit for json escaping. -/
def hexDigit (n : Nat) : Char :=
  if n < 10 then Char.ofNat (48 + n) else Char.ofNat (87 + (n - 10))

/-- Four-digit lowercase hex escape body used in json \uXXXX escapes. -/
def hex4 (n : Nat) : List Char :=
  [hexDigit (n / 4096 % 16), hexDigit (n / 256 % 16),
   hexDigit (n / 16 % 16), hexDigit (n % 16)]

/-- Escape of one character under Python `json.dumps` defaults
(ensure_ascii): ASCII printable characters other than quote and backslash
are literal, the usual short escapes apply, everything else becomes
\uXXXX (with a surrogate pair above the BMP). -/
def jsonEscapeChar (c : Char) : List Char :=
  let n := c.toNat
  if c = '"' then ['\\', '"']
  else if c = '\\' then ['\\', '\\']
  else if c = '\n' then ['\\', 'n']
  else if c = '\t' then ['\\', 't']
  else if c = '\r' then ['\\', 'r']
  else if n = 8 then ['\\', 'b']
  else if n = 12 then ['\\', 'f']
  else if n < 32 then '\\' :: 'u' :: hex4 n
  else if n < 127 then [c]
  else if n < 65536 then '\\' :: 'u' :: hex4 n
  else
    '\\' :: 'u' :: hex4 (55296 + (n - 65536) / 1024) ++
    ('\\' :: 'u' :: hex4 (56320 + (n - 65536) % 1024))

/-- Python `json.dumps` of a single string, as characters. -/
def jsonStringChars (s : List Char) : List Char :=
  '"' :: s.foldr (fun c acc => jsonEscapeChar c ++ acc) ['"']

/-- List intercalation on characters. -/
def intercalateChars (sep : List Char) : List (List Char) → List Char
  | [] => []
  | [x] => x
  | x :: xs => x ++ sep ++ intercalateChars sep xs

/-- Python `json.dumps` of a list of strings, default separators
(a comma followed by a space). -/
def json_dumps (vs : List String) : String :=
  String.mk ('[' ::
    intercalateChars [',', ' '] (vs.map (fun v => jsonStringChars v.toList))
    ++ [']'])

/-- Append to `arr_map` (a `defaultdict(list)` keyed by the array name,
keeping name insertion order, appending each (index, value) pair). -/
def arrAppend (m : List (String × List (Nat × String))) (name : String)
    (iv : Nat × String) : List (String × List (Nat × String)) :=
  match m with
  | [] => [(name, [iv])]
  | (n, vs) :: t =>
    if n = name then (n, vs ++ [iv]) :: t else (n, vs) :: arrAppend t name iv

/-- One step of the first loop of `_update_instances` (core.py lines
151-158), processing one raw (key, value) pair against the accumulated
(environment, arr_map) pair: dots are replaced by the nested delimiter; a
key matching `ARRAY_RE` is collected into `arr_map` under its name group;
otherwise the key receives the field-name prefix unless the RAW key is one
of the declared aliases, and the value is written into the environment. -/
def update_env_step (delim pfx : String) (aliases : List String)
    (acc : List (String × String) × List (String × List (Nat × String)))
    (kv : String × String) :
    List (String × String) × List (String × List (Nat × String)) :=
  let key := dotReplace kv.1 delim
  match ARRAY_RE_match key with
  | some ni => (acc.1, arrAppend acc.2 ni.1 (ni.2, kv.2))
  | none =>
    let key' := if aliases.contains kv.1 then key else pfx ++ key
    (setA acc.1 key' kv.2, acc.2)

/-- The (index, value) entries that the first loop collects from the raw
map: one entry per raw key whose delimiter-replaced form matches
`ARRAY_RE`, in insertion order, carrying the parsed index and the raw
value. -/
def collectArr (config : List (String × String)) (delim : String) :
    List (Nat × String) :=
  config.filterMap (fun kv =>
    (ARRAY_RE_match (dotReplace kv.1 delim)).map (fun ni => (ni.2, kv.2)))

/-- Environment-write phase of `_update_instances` (core.py lines 146-163):
the per-key loop (`update_env_step`) followed by the arr_map loop, which
writes each collected array group once, prefixed unless the COLLECTED
(delimiter-replaced) name is a declared alias, its value the json dump of
the values sorted by Python tuple order on (index, value). -/
def update_env (config : List (String × String)) (delim pfx : String)
    (aliases : List String) (env0 : List (String × String)) :
    List (String × String) :=
  let phase1 := config.foldl (update_env_step delim pfx aliases) (env0, [])
  phase1.2.foldl (fun env nvs =>
    let k := if aliases.contains nvs.1 then nvs.1 else pfx ++ nvs.1
    setA env k (json_dumps ((pySorted nvs.2).map Prod.snd))) phase1.1

/-! ## Settings Materializer (core.py, `_update_instances` instance step,
`ApolloSettings.__new__`, `_init`) -/

/-- Validated data produced by the external pydantic constructor (modelled
opaquely as the flat data it validated). -/
abbrev Value := List (String × String)

/-- A settings class together with the pieces of its model_config that
`_update_instances` reads: env_prefix, env_nested_delimiter and the set of
declared alias source keys collected by `_get_alias`. -/
structure SettingsClass where
  id : Nat
  pfx : String
  delim : String
  aliases : List String
deriving DecidableEq, Repr

/-- Errors that can cross a synchronization round: transport failures from
httpx, pydantic validation failures, and a Python KeyError from looking up
an unregistered namespace. -/
inductive ApolloError
  | httpError
  | validationError
  | keyError
deriving DecidableEq, Repr

/-- The external pydantic constructor: given the class and the current
environment contents it either returns validated data or fails. It is an
oracle parameter because the validated settings model is an external
collaborator of the engine. -/
abbrev Validator := SettingsClass → List (String × String) → Except ApolloError Value

/-- State touched by the materializer: `ApolloSettings.__instances__`
(class id to the instance object identity and its validated field state,
`none` while the object has never passed validation), a counter providing
fresh object identities, and `os.environ`. -/
structure InstState where
  instances : List (Nat × (Nat × Option Value))
  nextInstId : Nat
  env : List (String × String)
deriving DecidableEq, Repr

/-- Model of `ApolloSettings.__new__` composed with the no-op `__init__`
(core.py lines 242-252): if the class has no cached instance, a fresh
object is created and cached with no validated fields; otherwise the
cached object is returned. Returns the state and the object identity. -/
def newInstance (st : InstState) (cls : SettingsClass) : InstState × Nat :=
  match lookupA st.instances cls.id with
  | some p => (st, p.1)
  | none =>
    ({ st with
        instances := st.instances ++ [(cls.id, (st.nextInstId, none))],
        nextInstId := st.nextInstId + 1 },
      st.nextInstId)

/-- Model of `_update_instances` (core.py lines 146-170): write the
flattened snapshot into the environment, obtain the cached instance (or
create and cache a fresh one via `cls()`), then run `inst._init()`, i.e.
re-validate the instance in place from the environment. On success the
SAME object identity carries the new validated fields; on failure the
error is returned to the caller and the previous field state is kept.
The state is returned in both cases because the Python mutations
(environment writes, instance caching) persist when `_init` raises. -/
def update_instances (validate : Validator) (st : InstState)
    (cls : SettingsClass) (config : List (String × String)) :
    InstState × Option ApolloError :=
  let env' := update_env config cls.delim cls.pfx cls.aliases st.env
  let st1 := { st with env := env' }
  let p := newInstance st1 cls
  match validate cls env' with
  | .ok v =>
    ({ p.1 with instances := setA p.1.instances cls.id (p.2, some v) }, none)
  | .error e => (p.1, some e)

/-- Operations of the public interface that can touch `__instances__`:
direct construction of a settings class, and one application of a fetched
snapshot (with the validator outcome it will see). -/
inductive SettingsOp
  | construct (cls : SettingsClass)
  | update (cls : SettingsClass) (config : List (String × String))
      (validate : Validator)

/-- Replay of a sequence of interface operations from a given state,
collecting the log of class ids for which a snapshot application
succeeded (each such entry is one successfully applied fetch). -/
def runOps : InstState × List Nat → List SettingsOp → InstState × List Nat
  | acc, [] => acc
  | acc, .construct cls :: rest => runOps ((newInstance acc.1 cls).1, acc.2) rest
  | acc, .update cls config validate :: rest =>
    let r := update_instances validate acc.1 cls config
    runOps (r.1, if r.2 = none then acc.2 ++ [cls.id] else acc.2) rest

/-- Initial state: no instances, empty environment. -/
def initInstState : InstState := ⟨[], 0, []⟩

/-! ## Namespace Registry and Synchronization Loop
(core.py, `_notification_once`, `_update`, `_update_metadata`, `_start`,
`start`) -/

/-- One entry of `self._notifications[client]`: the watermark (notification
id, initially the -1 sentinel) stored for a subscribed namespace. -/
structure NotifEntry where
  namespaceName : String
  notificationId : Int
deriving DecidableEq, Repr

/-- One element of a long-poll response: a namespace whose watermark
advanced, the new watermark, and the messages blob forwarded to the
namespace fetch. -/
structure Notification where
  namespaceName : String
  notificationId : Int
  messages : String
deriving DecidableEq, Repr

/-- Body of a successful namespace fetch (`uncached_config` result):
namespace name, release key and the raw configurations map. -/
structure ConfigResp where
  namespaceName : String
  releaseKey : String
  configurations : List (String × String)
deriving DecidableEq, Repr

/-- Per-connection registry state: the namespaces registered on the
connection with their owning classes, the stored watermark entries (in
registration/append order), the stored release keys, and the materializer
state. -/
structure SyncState where
  registered : List (String × SettingsClass)
  notifications : List NotifEntry
  releaseKeys : List (String × Option String)
  inst : InstState
deriving Repr

/-- Watermark update loop of `_notification_once` (core.py lines 90-93):
for every notification in the response, every stored entry with the same
namespace name gets the reported notification id. -/
def updateWatermarks (entries : List NotifEntry) (resp : List Notification) :
    List NotifEntry :=
  resp.foldl (fun es n =>
    es.map (fun e =>
      if e.namespaceName = n.namespaceName then
        { e with notificationId := n.notificationId }
      else e)) entries

/-- Model of `_update_metadata` (core.py lines 128-134): look up the owning
class of the fetched namespace (a missing entry is a Python KeyError),
store the release key, then rebuild the instance from the configurations. -/
def update_metadata (validate : Validator) (st : SyncState) (res : ConfigResp) :
    SyncState × Option ApolloError :=
  match lookupA st.registered res.namespaceName with
  | none => (st, some .keyError)
  | some cls =>
    let st1 := { st with
      releaseKeys := setA st.releaseKeys res.namespaceName (some res.releaseKey) }
    let r := update_instances validate st1.inst cls res.configurations
    ({ st1 with inst := r.1 }, r.2)

/-- Application loop of `_update` (core.py lines 124-126): apply each
non-empty fetch result in turn; an error mid-way leaves the earlier
applications in place and propagates. -/
def applyFetched (validate : Validator) (st : SyncState) :
    List (Option ConfigResp) → SyncState × Option ApolloError
  | [] => (st, none)
  | none :: rest => applyFetched validate st rest
  | some res :: rest =>
    let r := update_metadata validate st res
    match r.2 with
    | some e => (r.1, some e)
    | none => applyFetched validate r.1 rest

/-- Network oracle for one synchronization round: the long-poll response
(error, HTTP 304 mapped to none, or a list of changed namespaces), the
per-namespace fetch outcome, and the validator. -/
structure RoundOracle where
  resp : Except ApolloError (Option (List Notification))
  fetch : String → Except ApolloError (Option ConfigResp)
  validate : Validator

/-- Model of `_notification_once` together with `_update` (core.py lines
84-126): an erroring long poll propagates; a falsy response (304 or empty
list) returns with nothing touched and nothing fetched; otherwise the
stored watermarks are first set to the reported values, then one fetch per
reported namespace is issued (an erroring fetch makes the gather propagate
with nothing applied), and the non-empty results are applied in order.
Returns the state, the list of namespaces fetched, and the error if any. -/
def notification_once (st : SyncState) (o : RoundOracle) :
    SyncState × List String × Option ApolloError :=
  match o.resp with
  | .error e => (st, [], some e)
  | .ok none => (st, [], none)
  | .ok (some r) =>
    if r.isEmpty then (st, [], none)
    else
      let st1 := { st with notifications := updateWatermarks st.notifications r }
      let fetched := r.map (·.namespaceName)
      let outcomes := fetched.map o.fetch
      if outcomes.any (fun x => x matches .error _) then
        (st1, fetched, some ((outcomes.filterMap (fun x =>
          match x with | .error e => some e | .ok _ => none)).headD .httpError))
      else
        let results := outcomes.map (fun x => match x with
          | .ok v => v
          | .error _ => none)
        let r2 := applyFetched o.validate st1 results
        (r2.1, fetched, r2.2)

/-- One iteration of the steady-state loop body in `_start` (core.py lines
200-204): run the round, then re-arm a new poll task for the connection
exactly when the engine is still started. -/
def pollLoopStep (started : Bool) (st : SyncState) (o : RoundOracle) :
    SyncState × List String × Option ApolloError × Bool :=
  let r := notification_once st o
  (r.1, r.2.1, r.2.2, started)

/-- Outcome of awaiting `start()`: either the caller resumes, or it waits
forever on `self._started_fut`. -/
inductive StartOutcome
  | returned
  | pending
deriving DecidableEq, Repr

/-- Model of `start()` driving `_start` (core.py lines 185-213) through the
initial barrier: one round per registered connection runs with
onerror_resume disabled; if any round raised, `_start` re-raises inside
the task created by `start()` before `self._started_fut.set_result(None)`
is reached, nothing awaits that task, and the caller of `start()` keeps
awaiting the never-resolved future (outcome `pending`); only when every
round succeeded is the future resolved and `start()` returns. The states
after the barrier rounds are returned alongside. -/
def start_model (conns : List (SyncState × RoundOracle)) :
    StartOutcome × List SyncState :=
  let rs := conns.map (fun c => notification_once c.1 c.2)
  if rs.any (fun r => r.2.2.isSome) then (.pending, rs.map (·.1))
  else (.returned, rs.map (·.1))

/-! ## Namespace Registry registration (core.py, `register`) -/

/-- Connection identity tuple `(config_server, appid, cluster)` as read
from model_config by `_get_key`; a field the class never set reads as
`none`, and Python truthiness also rejects the empty string. -/
structure ClientKey where
  config_server : Option String
  appid : Option String
  cluster : Option String
deriving DecidableEq, Repr

/-- Python truthiness of an optional string. -/
def optTruthy : Option String → Bool
  | none => false
  | some s => s ≠ ""

/-- Class declaration as seen by `register`: its connection fields and
namespace. -/
structure RegClass where
  clsId : Nat
  key : ClientKey
  namespaceName : Option String
deriving DecidableEq, Repr

/-- Values that occur as dictionary keys in the metadata registry: the
`_clients` dictionary is keyed by ClientKey tuples while `_registered`,
`_notifications` and `_release_keys` are keyed by ApolloClient objects
(modelled by their identity). Python `in` compares with `==`, under which
a tuple never equals an ApolloClient. -/
inductive PyDictKey
  | tup (k : ClientKey)
  | client (id : Nat)
deriving DecidableEq, Repr

/-- Python equality between registry dictionary keys: tuples compare
componentwise, client objects compare by identity, and a tuple is never
equal to a client object. -/
def pyKeyEq : PyDictKey → PyDictKey → Bool
  | .tup a, .tup b => a = b
  | .client a, .client b => a = b
  | _, _ => false

/-- State of `ApolloSettingsMetadata` as `register` sees it. -/
structure RegState where
  clients : List (ClientKey × Nat)
  nextClientId : Nat
  registered : List (Nat × List (String × Nat))
  notifications : List (Nat × List NotifEntry)
  releaseKeys : List (Nat × List (String × Option String))
deriving DecidableEq, Repr

/-- Errors raised by `register` (both are ValueError in the source). -/
inductive RegError
  | missingField
  | duplicate
deriving DecidableEq, Repr

/-- Membership test `key in self._registered` of core.py line 70, written
with Python equality over the dictionary keys: `key` is the connection
tuple while the dictionary is keyed by ApolloClient objects. -/
def registeredHasKey (st : RegState) (key : ClientKey) : Bool :=
  st.registered.any (fun p => pyKeyEq (.tup key) (.client p.1))

/-- Lookup `self._registered.get(key)` under the same Python equality. -/
def registeredGet (st : RegState) (key : ClientKey) :
    Option (List (String × Nat)) :=
  (st.registered.find? (fun p => pyKeyEq (.tup key) (.client p.1))).map (·.2)

/-- Model of `ApolloSettingsMetadata.register` (core.py lines 65-78).
Raises when any of config_server, appid, cluster, namespace is falsy;
raises on the duplicate test of line 70; otherwise interns the client by
its connection tuple, records the owning class (overwriting any previous
owner of the namespace), APPENDS a watermark entry with the -1 sentinel,
and resets the stored release key. -/
def register (st : RegState) (cls : RegClass) : Except RegError RegState :=
  let key := cls.key
  if ¬ (optTruthy key.config_server && optTruthy key.appid &&
        optTruthy key.cluster && optTruthy cls.namespaceName) then
    .error .missingField
  else
    let ns := cls.namespaceName.getD ""
    if registeredHasKey st key &&
        ((registeredGet st key).elim false (fun m => (lookupA m ns).isSome)) then
      .error .duplicate
    else
      let cid := (lookupA st.clients key).getD st.nextClientId
      let st1 :=
        if (lookupA st.clients key).isSome then st
        else { st with clients := st.clients ++ [(key, st.nextClientId)],
                       nextClientId := st.nextClientId + 1 }
      let regRow := (lookupA st1.registered cid).getD []
      let notifRow := (lookupA st1.notifications cid).getD []
      let rkRow := (lookupA st1.releaseKeys cid).getD []
      .ok { st1 with
        registered := setA st1.registered cid (setA regRow ns cls.clsId),
        notifications := setA st1.notifications cid
          (notifRow ++ [⟨ns, -1⟩]),
        releaseKeys := setA st1.releaseKeys cid (setA rkRow ns none) }

/-- Empty metadata registry. -/
def initRegState : RegState := ⟨[], 0, [], [], []⟩

/-! ## Signed Fetch Client (client.py, `signature` and `headers`) -/

/-- UTF-8 encoding of one code point. -/
def utf8Char (n : Nat) : List Nat :=
  if n < 128 then [n]
  else if n < 2048 then [192 ||| (n >>> 6), 128 ||| (n &&& 63)]
  else if n < 65536 then
    [224 ||| (n >>> 12), 128 ||| ((n >>> 6) &&& 63), 128 ||| (n &&& 63)]
  else
    [240 ||| (n >>> 18), 128 ||| ((n >>> 12) &&& 63),
     128 ||| ((n >>> 6) &&& 63), 128 ||| (n &&& 63)]

/-- UTF-8 bytes of a string (Python `str.encode()`). -/
def utf8 (s : String) : List Nat :=
  s.toList.foldr (fun c acc => utf8Char c.toNat ++ acc) []

/-- Left rotation of a 32-bit word held as a Nat below 2^32. -/
def rotl (k x : Nat) : Nat :=
  (((x <<< k) % 4294967296) ||| (x >>> (32 - k)))

/-- Big-endian byte decomposition, `n` bytes. -/
def bytesBE (n v : Nat) : List Nat :=
  (List.range n).map (fun i => (v >>> (8 * (n - 1 - i))) % 256)

/-- SHA-1 padding: append 0x80, zero bytes up to 56 mod 64, and the
64-bit big-endian bit length. -/
def sha1Pad (msg : List Nat) : List Nat :=
  let z := (119 - msg.length % 64) % 64
  msg ++ [128] ++ List.replicate z 0 ++ bytesBE 8 (msg.length * 8)

/-- Split into 64-byte chunks (fuel-driven structural recursion so that it
reduces inside the kernel; the fuel is always sufficient at call sites). -/
def chunks64 (fuel : Nat) (l : List Nat) : List (List Nat) :=
  match fuel with
  | 0 => []
  | fuel + 1 =>
    match l with
    | [] => []
    | _ => l.take 64 :: chunks64 fuel (l.drop 64)

/-- The 16 big-endian 32-bit words of one 64-byte chunk. -/
def chunkWords (chunk : List Nat) : List Nat :=
  (List.range 16).map (fun i =>
    chunk.getD (4 * i) 0 * 16777216 + chunk.getD (4 * i + 1) 0 * 65536 +
    chunk.getD (4 * i + 2) 0 * 256 + chunk.getD (4 * i + 3) 0)

/-- Message-schedule extension: append words until 80 are present. -/
def extendWords (ws : List Nat) : Nat → List Nat
  | 0 => ws
  | k + 1 =>
    let n := ws.length
    let w := rotl 1 (((ws.getD (n - 3) 0 ^^^ ws.getD (n - 8) 0) ^^^
              ws.getD (n - 14) 0) ^^^ ws.getD (n - 16) 0)
    extendWords (ws ++ [w]) k

/-- One SHA-1 round. -/
def sha1Round (w : List Nat) (st : Nat × Nat × Nat × Nat × Nat) (i : Nat) :
    Nat × Nat × Nat × Nat × Nat :=
  let (a, b, c, d, e) := st
  let f :=
    if i < 20 then (b &&& c) ||| ((b ^^^ 4294967295) &&& d)
    else if i < 40 then (b ^^^ c) ^^^ d
    else if i < 60 then ((b &&& c) ||| (b &&& d)) ||| (c &&& d)
    else (b ^^^ c) ^^^ d
  let k :=
    if i < 20 then 1518500249
    else if i < 40 then 1859775393
    else if i < 60 then 2400959708
    else 3395469782
  let temp := (rotl 5 a + f + e + k + w.getD i 0) % 4294967296
  (temp, a, rotl 30 b, c, d)

/-- Compression of one chunk into the running hash state. -/
def sha1Compress (h : Nat × Nat × Nat × Nat × Nat) (chunk : List Nat) :
    Nat × Nat × Nat × Nat × Nat :=
  let w := extendWords (chunkWords chunk) 64
  let (h0, h1, h2, h3, h4) := h
  let r := (List.range 80).foldl (sha1Round w) (h0, h1, h2, h3, h4)
  ((h0 + r.1) % 4294967296, (h1 + r.2.1) % 4294967296,
   (h2 + r.2.2.1) % 4294967296, (h3 + r.2.2.2.1) % 4294967296,
   (h4 + r.2.2.2.2) % 4294967296)

/-- SHA-1 of a byte list, 20 output bytes. -/
def sha1 (msg : List Nat) : List Nat :=
  let padded := sha1Pad msg
  let h := (chunks64 (padded.length + 1) padded).foldl sha1Compress
    (1732584193, 4023233417, 2562383102, 271733878, 3285377520)
  bytesBE 4 h.1 ++ bytesBE 4 h.2.1 ++ bytesBE 4 h.2.2.1 ++
  bytesBE 4 h.2.2.2.1 ++ bytesBE 4 h.2.2.2.2

/-- HMAC-SHA1 (Python `hmac.new(key, msg, hashlib.sha1).digest()`). -/
def hmacSha1 (key msg : List Nat) : List Nat :=
  let k1 := if 64 < key.length then sha1 key else key
  let k2 := k1 ++ List.replicate (64 - k1.length) 0
  sha1 (k2.map (fun b => b ^^^ 92) ++ sha1 (k2.map (fun b => b ^^^ 54) ++ msg))

/-- Standard base64 alphabet. -/
def b64Char (n : Nat) : Char :=
  "ABCDEFGHIJKLMNOPQRSTUVWXYZabcdefghijklmnopqrstuvwxyz0123456789+/".toList.getD n '?'

/-- Base64 encoding with padding (Python `base64.b64encode`). -/
def base64Encode : List Nat → String
  | b0 :: b1 :: b2 :: rest =>
    String.mk [b64Char (b0 >>> 2), b64Char (((b0 &&& 3) <<< 4) ||| (b1 >>> 4)),
               b64Char (((b1 &&& 15) <<< 2) ||| (b2 >>> 6)), b64Char (b2 &&& 63)]
      ++ base64Encode rest
  | [b0, b1] =>
    String.mk [b64Char (b0 >>> 2), b64Char (((b0 &&& 3) <<< 4) ||| (b1 >>> 4)),
               b64Char ((b1 &&& 15) <<< 2), '=']
  | [b0] =>
    String.mk [b64Char (b0 >>> 2), b64Char ((b0 &&& 3) <<< 4), '=', '=']
  | [] => ""

/-- Model of `ApolloClient.signature` (client.py lines 52-56):
base64(HMAC-SHA1(secret, timestamp + newline + uri)). -/
def signature (timestamp uri secret : String) : String :=
  base64Encode (hmacSha1 (utf8 secret) (utf8 (timestamp ++ "\n" ++ uri)))

/-- Model of `ApolloClient.headers` for a request path that already carries
its query string (client.py lines 58-67). The wall clock read
`int(time.time()*1000)` is the `nowMs` argument. A truthy secret yields
exactly the Authorization and Timestamp headers; a missing (or empty,
hence falsy) secret yields no headers. -/
def headers (secret_key : Option String) (appid path : String) (nowMs : Nat) :
    List (String × String) :=
  if optTruthy secret_key then
    let timestamp := toString nowMs
    [("Authorization",
      "Apollo " ++ appid ++ ":" ++
        signature timestamp path (secret_key.getD "")),
     ("Timestamp", timestamp)]
  else []

/-! ## Concrete fixtures used by the theorems below -/

/-- A settings class with the default model_config of `ApolloSettings`
(env_prefix APOLLO_, nested delimiter __, no aliases). -/
def demoCls : SettingsClass := ⟨0, "APOLLO_", "__", []⟩

/-- Registry state of one connection subscribing the `application`
namespace for `demoCls`, fresh from registration (sentinel watermark -1,
no release key, no instances). -/
def demoState : SyncState :=
  ⟨[("application", demoCls)], [⟨"application", -1⟩], [("application", none)],
   initInstState⟩

/-- A validator that accepts everything and returns the environment it
validated. -/
def vOracle : Validator := fun _ env => .ok env

/-- A validator that always fails validation. -/
def vFail : Validator := fun _ _ => .error .validationError

/-- Round oracle whose long poll raises a transport error. -/
def failOracle : RoundOracle := ⟨.error .httpError, fun _ => .ok none, vOracle⟩

/-- Round oracle reporting a change for `application` (new watermark 100)
whose fetch succeeds with one key. -/
def okOracle : RoundOracle :=
  ⟨.ok (some [⟨"application", 100, "m"⟩]),
   fun ns => .ok (some ⟨ns, "rk1", [("key1", "v1")]⟩), vOracle⟩

/-- Class registration fixtures for the duplicate-registration scenario:
two distinct classes declaring the same connection tuple and namespace. -/
def clsA : RegClass := ⟨0, ⟨some "http://s", some "app", some "default"⟩, some "application"⟩

/-- Second class declaring exactly the connection and namespace of clsA. -/
def clsB : RegClass := ⟨1, ⟨some "http://s", some "app", some "default"⟩, some "application"⟩

/-- Class with the cluster connection field left unset. -/
def clsNoCluster : RegClass := ⟨2, ⟨some "http://s", some "app", none⟩, some "application"⟩

/-- Result of registering clsA and then clsB (the duplicate). -/
def regTwice : Except RegError RegState :=
  (register initRegState clsA).bind (fun st => register st clsB)

/-- Object identity that `_update_instances` operates on: the identity of
the cached instance when one exists, else the identity the fresh instance
will receive. -/
def instIdAfter (st : InstState) (cls : SettingsClass) : Nat :=
  match lookupA st.instances cls.id with
  | some p => p.1
  | none => st.nextInstId

/-- Validated field state of the cached instance before an update (none
when no instance exists or the instance never passed validation). -/
def fieldsBefore (st : InstState) (cls : SettingsClass) : Option Value :=
  match lookupA st.instances cls.id with
  | some p => p.2
  | none => none

/-! ## Association list lemmas -/

theorem lookupA_setA_self {α β : Type} [DecidableEq α] (l : List (α × β)) (k : α) (v : β) :
    lookupA (setA l k v) k = some v := by
  induction l with
  | nil => simp [setA, lookupA]
  | cons h t ih =>
    by_cases hk : h.1 = k
    · simp [setA, hk, lookupA]
    · simp [setA, hk, lookupA, ih]

theorem lookupA_setA_ne {α β : Type} [DecidableEq α] (l : List (α × β)) (k k' : α) (v : β)
    (h : k' ≠ k) : lookupA (setA l k v) k' = lookupA l k' := by
  induction l with
  | nil => simp [setA, lookupA, Ne.symm h]
  | cons hd t ih =>
    by_cases hk : hd.1 = k
    · simp [setA, hk, lookupA, Ne.symm h]
    · by_cases hk' : hd.1 = k'
      · simp [setA, hk, lookupA, hk', h]
      · simp [setA, hk, lookupA, hk', ih]

theorem lookupA_append_none {α β : Type} [DecidableEq α] (l : List (α × β)) (k : α) (v : β)
    (h : lookupA l k = none) : lookupA (l ++ [(k, v)]) k = some v := by
  induction l with
  | nil => simp [lookupA]
  | cons hd t ih =>
    by_cases hk : hd.1 = k
    · simp [lookupA, hk] at h
    · simp [lookupA, hk] at h ⊢
      exact ih h

theorem lookupA_append_single {α β : Type} [DecidableEq α] (l : List (α × β)) (k k' : α)
    (x y : β) (h : lookupA (l ++ [(k, x)]) k' = some y) :
    lookupA l k' = some y ∨ (k = k' ∧ x = y) := by
  induction l with
  | nil =>
    simp [lookupA] at h
    rcases h with ⟨h1, h2⟩
    exact Or.inr ⟨h1, h2⟩
  | cons hd t ih =>
    by_cases hk : hd.1 = k'
    · simp [lookupA, hk] at h ⊢
      exact Or.inl h
    · simp [lookupA, hk] at h ⊢
      exact ih h

/-! ## Order theory of the Python tuple comparison and `sorted` model -/

theorem charListLt_asymm (a : List Char) :
    ∀ b, charListLt a b = true → charListLt b a = false := by
  induction a with
  | nil =>
    intro b h
    cases b with
    | nil => simp [charListLt] at h
    | cons y ys => simp [charListLt]
  | cons x xs ih =>
    intro b h
    cases b with
    | nil => simp [charListLt] at h
    | cons y ys =>
      simp only [charListLt] at h ⊢
      rcases Nat.lt_trichotomy x.toNat y.toNat with hlt | heq | hgt
      · rw [if_neg (by omega : ¬ y.toNat < x.toNat),
          if_neg (by omega : ¬ y.toNat = x.toNat)]
      · rw [if_neg (by omega), if_pos heq] at h
        rw [if_neg (by omega : ¬ y.toNat < x.toNat),
          if_pos (by omega : y.toNat = x.toNat)]
        exact ih ys h
      · rw [if_neg (by omega), if_neg (by omega)] at h
        simp at h

theorem charListLt_trans_aux (c : List Char) :
    ∀ a b, charListLt c a = true →
      charListLt c b = true ∨ charListLt b a = true := by
  induction c with
  | nil =>
    intro a b h
    cases a with
    | nil => simp [charListLt] at h
    | cons x xs =>
      cases b with
      | nil => right; simp [charListLt]
      | cons y ys => left; simp [charListLt]
  | cons z zs ih =>
    intro a b h
    cases a with
    | nil => simp [charListLt] at h
    | cons x xs =>
      cases b with
      | nil => right; simp [charListLt]
      | cons y ys =>
        simp only [charListLt] at h ⊢
        by_cases h1 : z.toNat < x.toNat
        · rcases Nat.lt_trichotomy z.toNat y.toNat with hzy | hzy | hzy
          · left; simp [hzy]
          · right; simp [(by omega : y.toNat < x.toNat)]
          · right; simp [(by omega : y.toNat < x.toNat)]
        · by_cases h2 : z.toNat = x.toNat
          · rw [if_neg h1, if_pos h2] at h
            rcases Nat.lt_trichotomy z.toNat y.toNat with hzy | hzy | hzy
            · left; simp [hzy]
            · rcases ih xs ys h with h3 | h3
              · left
                simp [(by omega : ¬ z.toNat < y.toNat), hzy, h3]
              · right
                simp [(by omega : ¬ y.toNat < x.toNat), (by omega : y.toNat = x.toNat), h3]
            · right; simp [(by omega : y.toNat < x.toNat)]
          · rw [if_neg h1, if_neg h2] at h
            simp at h

theorem pyLe_total (a b : Nat × String) : pyLe a b = true ∨ pyLe b a = true := by
  simp only [pyLe]
  rcases Nat.lt_trichotomy a.1 b.1 with h | h | h
  · left; rw [if_pos h]
  · cases hlt : charListLt b.2.toList a.2.toList with
    | false =>
      left
      rw [if_neg (by omega : ¬ a.1 < b.1), if_pos h]
      rfl
    | true =>
      right
      rw [if_neg (by omega : ¬ b.1 < a.1), if_pos h.symm,
        charListLt_asymm _ _ hlt]
      rfl
  · right; rw [if_pos h]

theorem pyLe_trans (a b c : Nat × String) (h1 : pyLe a b = true)
    (h2 : pyLe b c = true) : pyLe a c = true := by
  simp only [pyLe] at h1 h2 ⊢
  by_cases hab : a.1 < b.1 <;> by_cases hbc : b.1 < c.1
  · rw [if_pos (by omega)]
  · by_cases hbc2 : b.1 = c.1
    · rw [if_pos (by omega)]
    · rw [if_neg hbc, if_neg hbc2] at h2; simp at h2
  · by_cases hab2 : a.1 = b.1
    · rw [if_pos (by omega)]
    · rw [if_neg hab, if_neg hab2] at h1; simp at h1
  · by_cases hab2 : a.1 = b.1
    · by_cases hbc2 : b.1 = c.1
      · rw [if_neg hab, if_pos hab2] at h1
        rw [if_neg hbc, if_pos hbc2] at h2
        rw [if_neg (by omega : ¬ a.1 < c.1), if_pos (by omega : a.1 = c.1)]
        have hba : charListLt b.2.toList a.2.toList = false := by
          cases hx : charListLt b.2.toList a.2.toList
          · rfl
          · rw [hx] at h1; simp at h1
        have hcb : charListLt c.2.toList b.2.toList = false := by
          cases hx : charListLt c.2.toList b.2.toList
          · rfl
          · rw [hx] at h2; simp at h2
        have hca : charListLt c.2.toList a.2.toList = false := by
          cases hx : charListLt c.2.toList a.2.toList
          · rfl
          · rcases charListLt_trans_aux _ _ b.2.toList hx with h3 | h3
            · rw [h3] at hcb; simp at hcb
            · rw [h3] at hba; simp at hba
        rw [hca]; rfl
      · rw [if_neg hbc, if_neg hbc2] at h2; simp at h2
    · rw [if_neg hab, if_neg hab2] at h1; simp at h1

theorem pyLe_fst_le (a b : Nat × String) (h : pyLe a b = true) : a.1 ≤ b.1 := by
  simp only [pyLe] at h
  by_cases h1 : a.1 < b.1
  · omega
  · by_cases h2 : a.1 = b.1
    · omega
    · rw [if_neg h1, if_neg h2] at h; simp at h

theorem mem_insertSorted (x z : Nat × String) (l : List (Nat × String)) :
    z ∈ insertSorted x l ↔ z = x ∨ z ∈ l := by
  induction l with
  | nil => simp [insertSorted]
  | cons y ys ih =>
    simp only [insertSorted]
    by_cases hc : pyLe x y = true
    · rw [if_pos hc]
      simp [List.mem_cons]
    · rw [if_neg hc]
      simp [List.mem_cons, ih]
      tauto

theorem insertSorted_perm (x : Nat × String) (l : List (Nat × String)) :
    (insertSorted x l).Perm (x :: l) := by
  induction l with
  | nil => simp [insertSorted]
  | cons y ys ih =>
    simp only [insertSorted]
    by_cases hc : pyLe x y = true
    · rw [if_pos hc]
    · rw [if_neg hc]
      exact (ih.cons y).trans (List.Perm.swap x y ys)

theorem pySorted_perm (l : List (Nat × String)) : (pySorted l).Perm l := by
  induction l with
  | nil => simp [pySorted]
  | cons x xs ih =>
    simp only [pySorted]
    exact (insertSorted_perm x (pySorted xs)).trans (ih.cons x)

theorem insertSorted_pairwise (x : Nat × String) (l : List (Nat × String))
    (hl : l.Pairwise (fun a b => pyLe a b = true)) :
    (insertSorted x l).Pairwise (fun a b => pyLe a b = true) := by
  induction l with
  | nil => simp [insertSorted]
  | cons y ys ih =>
    rcases List.pairwise_cons.mp hl with ⟨hy, hys⟩
    simp only [insertSorted]
    by_cases hc : pyLe x y = true
    · rw [if_pos hc]
      refine List.pairwise_cons.mpr ⟨?_, hl⟩
      intro z hz
      rcases List.mem_cons.mp hz with heq | hz2
      · subst heq; exact hc
      · exact pyLe_trans x y z hc (hy z hz2)
    · rw [if_neg hc]
      refine List.pairwise_cons.mpr ⟨?_, ih hys⟩
      intro z hz
      rcases (mem_insertSorted x z ys).mp hz with heq | hz2
      · subst heq
        rcases pyLe_total z y with h1 | h1
        · exact absurd h1 hc
        · exact h1
      · exact hy z hz2

theorem pySorted_pairwise (l : List (Nat × String)) :
    (pySorted l).Pairwise (fun a b => pyLe a b = true) := by
  induction l with
  | nil => simp [pySorted]
  | cons x xs ih =>
    simp only [pySorted]
    exact insertSorted_pairwise x (pySorted xs) ih

/-! ## Structure of flattening on all-array raw maps -/

theorem update_env_foldl_array (delim pfx : String) (aliases : List String)
    (name : String) (config : List (String × String)) :
    ∀ (env : List (String × String)) (acc : List (Nat × String)),
      (∀ kv ∈ config,
        (ARRAY_RE_match (dotReplace kv.1 delim)).map Prod.fst = some name) →
      config.foldl (update_env_step delim pfx aliases) (env, [(name, acc)])
        = (env, [(name, acc ++ collectArr config delim)]) := by
  induction config with
  | nil =>
    intro env acc h
    simp [collectArr]
  | cons kv rest ih =>
    intro env acc h
    have hkv := h kv (List.mem_cons_self kv rest)
    cases hm : ARRAY_RE_match (dotReplace kv.1 delim) with
    | none => rw [hm] at hkv; simp at hkv
    | some ni =>
      rw [hm] at hkv
      have hname : ni.1 = name := by simpa using hkv
      simp only [List.foldl_cons]
      have hstep : update_env_step delim pfx aliases (env, [(name, acc)]) kv
          = (env, [(name, acc ++ [(ni.2, kv.2)])]) := by
        simp [update_env_step, hm, hname, arrAppend]
      rw [hstep,
        ih env (acc ++ [(ni.2, kv.2)]) (fun kv2 h2 => h kv2 (List.mem_cons_of_mem kv h2))]
      simp [collectArr, hm, List.append_assoc]

theorem update_env_all_array (config : List (String × String)) (delim pfx : String)
    (aliases : List String) (name : String)
    (hne : config ≠ [])
    (h : ∀ kv ∈ config,
      (ARRAY_RE_match (dotReplace kv.1 delim)).map Prod.fst = some name) :
    update_env config delim pfx aliases []
      = [((if aliases.contains name then name else pfx ++ name),
          json_dumps ((pySorted (collectArr config delim)).map Prod.snd))] := by
  cases config with
  | nil => exact absurd rfl hne
  | cons kv rest =>
    have hkv := h kv (List.mem_cons_self kv rest)
    cases hm : ARRAY_RE_match (dotReplace kv.1 delim) with
    | none => rw [hm] at hkv; simp at hkv
    | some ni =>
      rw [hm] at hkv
      have hname : ni.1 = name := by simpa using hkv
      have hcol : collectArr (kv :: rest) delim
          = (ni.2, kv.2) :: collectArr rest delim := by
        simp [collectArr, hm]
      have hstep : update_env_step delim pfx aliases ([], []) kv
          = ([], [(name, [(ni.2, kv.2)])]) := by
        simp [update_env_step, hm, hname, arrAppend]
      simp only [update_env, List.foldl_cons]
      rw [hstep,
        update_env_foldl_array delim pfx aliases name rest [] [(ni.2, kv.2)]
          (fun kv2 h2 => h kv2 (List.mem_cons_of_mem kv h2)),
        hcol]
      simp [setA]

/-! ## Claim theorems -/

/-- C1 (code_bug evidence): with one registered connection whose initial
barrier long poll raises a transport error, the modelled `start()` is
`pending`: the exception is raised inside the `_start` task that nothing
awaits, `self._started_fut` is never resolved, and the caller of `start()`
keeps awaiting it forever instead of receiving the error. By contrast,
when the barrier round succeeds with a conforming response, `start()`
returns and the registered class has a materialized singleton instance
carrying the validated snapshot. -/
theorem c1_barrier_failure_start_pending :
    (start_model [(demoState, failOracle)]).1 = .pending ∧
    (start_model [(demoState, okOracle)]).1 = .returned ∧
    ((start_model [(demoState, okOracle)]).2.headD demoState).inst.instances
      = [(0, (0, some [("APOLLO_key1", "v1")]))] := by
  refine ⟨rfl, rfl, ?_⟩
  decide

/-- C2 (code_bug evidence): registering two classes that declare the very
same (config_server, appid, cluster) connection tuple and the same
namespace does NOT raise: the duplicate test of core.py line 70 asks
whether the connection tuple is a key of `self._registered`, but that
dictionary is keyed by ApolloClient objects, so the test is always false.
The second registration succeeds, silently appending a second sentinel
watermark entry for the namespace. Registering with an unset connection
field does raise, as the claim states. -/
theorem c2_duplicate_registration_not_raised :
    (register initRegState clsA).isOk = true ∧
    regTwice.isOk = true ∧
    regTwice.toOption.map (fun st => lookupA st.notifications 0)
      = some (some [⟨"application", -1⟩, ⟨"application", -1⟩]) ∧
    register initRegState clsNoCluster = .error .missingField ∧
    (∀ st key, registeredHasKey st key = false) := by
  refine ⟨rfl, rfl, by decide, rfl, ?_⟩
  intro st key
  simp only [registeredHasKey, pyKeyEq]
  induction st.registered with
  | nil => rfl
  | cons hd t ih => simp [ih]

/-- C5 (confirmed): for EVERY non-empty raw map all of whose keys (after
dot replacement) match the `name[index]` pattern with one common name,
flattening emits none of those keys directly but exactly one key - the
common name (dots already replaced by the nested delimiter, with the
prefix policy applied to it) - whose value is the json encoding of the
collected values arranged in ascending index order: the emitted sequence
is a permutation of all collected (index, value) entries and its indices
are sorted ascending. In particular the claimed example map yields
`a__bb` bound to the json array of "1" and "2" in index order 0,1. -/
theorem c5_array_flattening (config : List (String × String))
    (delim pfx : String) (aliases : List String) (name : String)
    (hne : config ≠ [])
    (h : ∀ kv ∈ config,
      (ARRAY_RE_match (dotReplace kv.1 delim)).map Prod.fst = some name) :
    update_env config delim pfx aliases []
      = [((if aliases.contains name then name else pfx ++ name),
          json_dumps ((pySorted (collectArr config delim)).map Prod.snd))] ∧
    (pySorted (collectArr config delim)).Perm (collectArr config delim) ∧
    ((pySorted (collectArr config delim)).map Prod.fst).Pairwise (· ≤ ·) ∧
    update_env [("a.bb[0]", "1"), ("a.bb[1]", "2")] "__" "" [] []
      = [("a__bb", "[\"1\", \"2\"]")] := by
  refine ⟨update_env_all_array config delim pfx aliases name hne h,
    pySorted_perm _, ?_, rfl⟩
  exact List.Pairwise.map Prod.fst (fun a b hab => pyLe_fst_le a b hab)
    (pySorted_pairwise _)

/-- C5 (witness): the spec example map, all keys matching the pattern with
common name `a__bb`, whose flattening yields the single key `a__bb` bound
to the json array in index order. -/
theorem c5_array_flattening_witness :
    ([("a.bb[0]", "1"), ("a.bb[1]", "2")] : List (String × String)) ≠ [] ∧
    (∀ kv ∈ ([("a.bb[0]", "1"), ("a.bb[1]", "2")] : List (String × String)),
      (ARRAY_RE_match (dotReplace kv.1 "__")).map Prod.fst = some "a__bb") ∧
    (update_env [("a.bb[0]", "1"), ("a.bb[1]", "2")] "__" "" [] []
        = [((if ([] : List String).contains "a__bb" then "a__bb"
             else "" ++ "a__bb"),
            json_dumps ((pySorted
              (collectArr [("a.bb[0]", "1"), ("a.bb[1]", "2")] "__")).map Prod.snd))] ∧
      (pySorted (collectArr [("a.bb[0]", "1"), ("a.bb[1]", "2")] "__")).Perm
        (collectArr [("a.bb[0]", "1"), ("a.bb[1]", "2")] "__") ∧
      ((pySorted (collectArr [("a.bb[0]", "1"), ("a.bb[1]", "2")] "__")).map
        Prod.fst).Pairwise (· ≤ ·) ∧
      update_env [("a.bb[0]", "1"), ("a.bb[1]", "2")] "__" "" [] []
        = [("a__bb", "[\"1\", \"2\"]")]) :=
  ⟨by decide, by decide,
   c5_array_flattening [("a.bb[0]", "1"), ("a.bb[1]", "2")] "__" "" [] "a__bb"
     (by decide) (by decide)⟩

/-- C10 (confirmed): a long-poll round whose response is "not modified"
(HTTP 304, surfaced by the client as `none`) leaves the whole connection
state - watermarks, release keys, instances, environment - unchanged,
fetches no namespace, reports no error, and re-arms the poll exactly when
the engine is still started. -/
theorem c10_not_modified_frame (started : Bool) (st : SyncState)
    (fetch : String → Except ApolloError (Option ConfigResp)) (validate : Validator) :
    pollLoopStep started st ⟨.ok none, fetch, validate⟩ = (st, [], none, started) := rfl

/-- C6 (counterexample): the flattened key `c__dd` (raw key `c.dd`, nested
delimiter `__`) matches the declared alias `c__dd`, yet it is written to
the store WITH the prefix, because the code tests the raw key, not the
flattened key, against the aliases. This refutes the claim that a
flattened key matching a declared alias source key is stored unprefixed. -/
theorem c6_counterexample :
    update_env [("c.dd", "v")] "__" "P_" ["c__dd"] [] = [("P_c__dd", "v")] ∧
    ("c__dd", "v") ∉ update_env [("c.dd", "v")] "__" "P_" ["c__dd"] [] := by
  decide

/-- C6 (amended): for a scalar key the alias test is performed on the RAW
key, before delimiter replacement: the value is stored under the
delimiter-replaced key, unprefixed exactly when the raw key is a declared
alias; for an array-pattern group the test is performed on the COLLECTED
(delimiter-replaced) name. All other keys receive the configured prefix. -/
theorem c6_alias_prefixing (k v delim p : String) (aliases : List String)
    (h : ARRAY_RE_match (dotReplace k delim) = none) :
    update_env [(k, v)] delim p aliases []
      = [((if aliases.contains k then dotReplace k delim
           else p ++ dotReplace k delim), v)] ∧
    ∀ w q, update_env [("c.dd[0]", w)] "__" q aliases []
      = [((if aliases.contains "c__dd" then "c__dd" else q ++ "c__dd"),
          json_dumps [w])] := by
  constructor
  · simp only [update_env, update_env_step, List.foldl, h, setA]
  · intro w q
    rfl

/-- C6 (witness for the amended theorem): the raw key `c-dd` declared as an
alias is stored unprefixed, while the raw key `key1` with no matching
alias receives the prefix. -/
theorem c6_alias_prefixing_witness :
    ARRAY_RE_match (dotReplace "c-dd" "__") = none ∧
    ARRAY_RE_match (dotReplace "key1" "__") = none ∧
    update_env [("c-dd", "v")] "__" "APOLLO_" ["c-dd"] []
      = [((if ["c-dd"].contains "c-dd" then dotReplace "c-dd" "__"
           else "APOLLO_" ++ dotReplace "c-dd" "__"), "v")] ∧
    update_env [("key1", "w")] "__" "APOLLO_" ["c-dd"] []
      = [((if ["c-dd"].contains "key1" then dotReplace "key1" "__"
           else "APOLLO_" ++ dotReplace "key1" "__"), "w")] :=
  ⟨by decide, by decide,
   (c6_alias_prefixing "c-dd" "v" "__" "APOLLO_" ["c-dd"] (by decide)).1,
   (c6_alias_prefixing "key1" "w" "__" "APOLLO_" ["c-dd"] (by decide)).1⟩

/-- C7 (counterexample): the raw keys `a.b[0]` and `a__b[0]` both flatten
to the array entry (name `a__b`, index 0), the second insertion carrying
value "x" and the first carrying value "y". The emitted array keeps BOTH
values, ordered by value ("x" before "y") because Python `sorted` compares
the full (index, value) tuples; the claim instead demands exactly one
value per distinct index, the last writer "x", which would be the json
array of "x" alone. -/
theorem c7_counterexample :
    update_env [("a.b[0]", "y"), ("a__b[0]", "x")] "__" "" [] []
      = [("a__b", "[\"x\", \"y\"]")] ∧
    ("[\"x\", \"y\"]" : String) ≠ json_dumps ["x"] := by
  decide

/-- C7 (amended): for EVERY non-empty collection of array-pattern entries
sharing one name - duplicate indices included - all entries are retained:
the single emitted value is the json encoding of a sequence that is a
permutation of ALL collected (index, value) entries (one element per
entry, no last-writer collapse to one value per distinct index) and that
is sorted by the lexicographic comparison of the (index, value) tuples,
so entries with equal indices are tie-broken by value order, not by
original insertion order. -/
theorem c7_duplicate_indices (config : List (String × String))
    (delim pfx : String) (aliases : List String) (name : String)
    (hne : config ≠ [])
    (h : ∀ kv ∈ config,
      (ARRAY_RE_match (dotReplace kv.1 delim)).map Prod.fst = some name) :
    update_env config delim pfx aliases []
      = [((if aliases.contains name then name else pfx ++ name),
          json_dumps ((pySorted (collectArr config delim)).map Prod.snd))] ∧
    (pySorted (collectArr config delim)).Perm (collectArr config delim) ∧
    (pySorted (collectArr config delim)).Pairwise
      (fun a b => pyLe a b = true) :=
  ⟨update_env_all_array config delim pfx aliases name hne h,
   pySorted_perm _, pySorted_pairwise _⟩

/-- C7 (witness for the amended theorem): a three-entry collection whose
raw keys a.b.c[0], a__b.c[0] and a.b__c[1] all flatten to the common name
a__b__c, with a duplicate index 0 inserted in the order "y" then "x": all
three values are retained and the duplicate index is tie-broken by value
order, giving the array "x","y","z". -/
theorem c7_duplicate_indices_witness :
    ([("a.b.c[0]", "y"), ("a__b.c[0]", "x"), ("a.b__c[1]", "z")] :
        List (String × String)) ≠ [] ∧
    (∀ kv ∈ ([("a.b.c[0]", "y"), ("a__b.c[0]", "x"), ("a.b__c[1]", "z")] :
        List (String × String)),
      (ARRAY_RE_match (dotReplace kv.1 "__")).map Prod.fst = some "a__b__c") ∧
    (update_env [("a.b.c[0]", "y"), ("a__b.c[0]", "x"), ("a.b__c[1]", "z")]
          "__" "" [] []
        = [((if ([] : List String).contains "a__b__c" then "a__b__c"
             else "" ++ "a__b__c"),
            json_dumps ((pySorted (collectArr
              [("a.b.c[0]", "y"), ("a__b.c[0]", "x"), ("a.b__c[1]", "z")]
              "__")).map Prod.snd))] ∧
      (pySorted (collectArr
          [("a.b.c[0]", "y"), ("a__b.c[0]", "x"), ("a.b__c[1]", "z")] "__")).Perm
        (collectArr
          [("a.b.c[0]", "y"), ("a__b.c[0]", "x"), ("a.b__c[1]", "z")] "__") ∧
      (pySorted (collectArr
          [("a.b.c[0]", "y"), ("a__b.c[0]", "x"), ("a.b__c[1]", "z")]
          "__")).Pairwise (fun a b => pyLe a b = true)) ∧
    json_dumps ((pySorted (collectArr
        [("a.b.c[0]", "y"), ("a__b.c[0]", "x"), ("a.b__c[1]", "z")]
        "__")).map Prod.snd)
      = "[\"x\", \"y\", \"z\"]" :=
  ⟨by decide, by decide,
   c7_duplicate_indices
     [("a.b.c[0]", "y"), ("a__b.c[0]", "x"), ("a.b__c[1]", "z")]
     "__" "" [] "a__b__c" (by decide) (by decide),
   by decide⟩

/-- C3 (counterexample): after a first successful snapshot application the
singleton for the class is the object with identity 0 carrying the first
snapshot; after a second successful application it is STILL the object
with identity 0, now carrying the second snapshot. The previous instance
object was therefore mutated in place (re-validated on the same object),
refuting the claim that each successful application replaces the instance
and never mutates the previous object. -/
theorem c3_counterexample :
    lookupA (update_instances vOracle initInstState demoCls [("k", "1")]).1.instances 0
      = some (0, some [("APOLLO_k", "1")]) ∧
    lookupA (update_instances vOracle
        (update_instances vOracle initInstState demoCls [("k", "1")]).1
        demoCls [("k", "2")]).1.instances 0
      = some (0, some [("APOLLO_k", "2")]) ∧
    ([("APOLLO_k", "1")] : Value) ≠ [("APOLLO_k", "2")] := by
  decide

/-- C3 (amended): each successful application re-validates the class
singleton in place: the cached instance object (created on first
application) keeps its identity while its entire field state is replaced
by the newly validated snapshot; an application that fails validation
returns the error to the caller (the Synchronization Loop) and leaves the
previous field state of the singleton intact. -/
theorem c3_in_place_revalidation (validate : Validator) (st : InstState)
    (cls : SettingsClass) (config : List (String × String)) :
    (∀ v, validate cls (update_env config cls.delim cls.pfx cls.aliases st.env) = .ok v →
      (update_instances validate st cls config).2 = none ∧
      lookupA (update_instances validate st cls config).1.instances cls.id
        = some (instIdAfter st cls, some v)) ∧
    (∀ e, validate cls (update_env config cls.delim cls.pfx cls.aliases st.env) = .error e →
      (update_instances validate st cls config).2 = some e ∧
      lookupA (update_instances validate st cls config).1.instances cls.id
        = some (instIdAfter st cls, fieldsBefore st cls)) := by
  cases hlk : lookupA st.instances cls.id with
  | none =>
    constructor
    · intro v hv
      simp [update_instances, newInstance, hlk, hv, instIdAfter, lookupA_setA_self]
    · intro e he
      simp [update_instances, newInstance, hlk, he, instIdAfter, fieldsBefore,
        lookupA_append_none _ _ _ hlk]
  | some p =>
    constructor
    · intro v hv
      simp [update_instances, newInstance, hlk, hv, instIdAfter, lookupA_setA_self]
    · intro e he
      simp [update_instances, newInstance, hlk, he, instIdAfter, fieldsBefore]

/-- C3 (witness for the amended theorem): a successful application stores
the validated snapshot on the instance with the expected identity; a
failing application surfaces the error and keeps the previous (here:
never-validated) field state. -/
theorem c3_in_place_revalidation_witness :
    (vOracle demoCls (update_env [("k", "1")] demoCls.delim demoCls.pfx
        demoCls.aliases initInstState.env) = .ok [("APOLLO_k", "1")] ∧
      (update_instances vOracle initInstState demoCls [("k", "1")]).2 = none ∧
      lookupA (update_instances vOracle initInstState demoCls [("k", "1")]).1.instances
          demoCls.id
        = some (instIdAfter initInstState demoCls, some [("APOLLO_k", "1")])) ∧
    (vFail demoCls (update_env [("k", "1")] demoCls.delim demoCls.pfx
        demoCls.aliases initInstState.env) = .error .validationError ∧
      (update_instances vFail initInstState demoCls [("k", "1")]).2
        = some .validationError ∧
      lookupA (update_instances vFail initInstState demoCls [("k", "1")]).1.instances
          demoCls.id
        = some (instIdAfter initInstState demoCls, fieldsBefore initInstState demoCls)) :=
  ⟨⟨rfl,
    ((c3_in_place_revalidation vOracle initInstState demoCls [("k", "1")]).1
      [("APOLLO_k", "1")] rfl).1,
    ((c3_in_place_revalidation vOracle initInstState demoCls [("k", "1")]).1
      [("APOLLO_k", "1")] rfl).2⟩,
   ⟨rfl,
    ((c3_in_place_revalidation vFail initInstState demoCls [("k", "1")]).2
      .validationError rfl).1,
    ((c3_in_place_revalidation vFail initInstState demoCls [("k", "1")]).2
      .validationError rfl).2⟩⟩

/-- C4 (counterexample): direct construction of a settings class from the
empty engine state caches an instance object for the class (it exists in
`__instances__`) although no snapshot application has ever succeeded (the
success log is empty). This refutes the claim that no operation of the
public interface, including direct construction, can create an instance
before a successful fetch. -/
theorem c4_counterexample :
    lookupA (runOps (initInstState, []) [.construct demoCls]).1.instances 0
      = some (0, none) ∧
    (runOps (initInstState, []) [.construct demoCls]).2 = [] := by
  decide

/-- Helper: an instance found with validated fields after `__new__` was
already present with those fields before, since construction only ever
caches a fresh object with no validated fields. -/
theorem newInstance_lookup_some (st : InstState) (cls : SettingsClass)
    (cid iid : Nat) (v : Value)
    (h : lookupA (newInstance st cls).1.instances cid = some (iid, some v)) :
    lookupA st.instances cid = some (iid, some v) := by
  unfold newInstance at h
  cases hlk : lookupA st.instances cls.id with
  | some p => rw [hlk] at h; exact h
  | none =>
    rw [hlk] at h
    simp only at h
    rcases lookupA_append_single _ _ _ _ _ h with h1 | ⟨_, h2⟩
    · exact h1
    · simp at h2

/-- Helper: an instance found with validated fields after one
`_update_instances` call either had those fields before the call, or is
the updated class itself and the call succeeded. -/
theorem update_instances_lookup (validate : Validator) (st : InstState)
    (cls : SettingsClass) (config : List (String × String))
    (cid iid : Nat) (v : Value)
    (h : lookupA (update_instances validate st cls config).1.instances cid
          = some (iid, some v)) :
    lookupA st.instances cid = some (iid, some v) ∨
      (cid = cls.id ∧ (update_instances validate st cls config).2 = none) := by
  simp only [update_instances] at h ⊢
  cases hval : validate cls (update_env config cls.delim cls.pfx cls.aliases st.env) with
  | ok v0 =>
    rw [hval] at h
    simp only at h ⊢
    by_cases hc : cid = cls.id
    · exact Or.inr ⟨hc, trivial⟩
    · rw [lookupA_setA_ne _ _ _ _ hc] at h
      exact Or.inl (newInstance_lookup_some
        { st with env := update_env config cls.delim cls.pfx cls.aliases st.env }
        cls cid iid v h)
  | error e =>
    rw [hval] at h
    simp only at h
    exact Or.inl (newInstance_lookup_some
      { st with env := update_env config cls.delim cls.pfx cls.aliases st.env }
      cls cid iid v h)

/-- Helper invariant for C4: running any sequence of interface operations
preserves the property that every class whose cached instance carries
validated fields appears in the success log. -/
theorem runOps_validated_logged (ops : List SettingsOp) :
    ∀ (st : InstState) (log : List Nat),
      (∀ c i w, lookupA st.instances c = some (i, some w) → c ∈ log) →
      ∀ c i w,
        lookupA (runOps (st, log) ops).1.instances c = some (i, some w) →
        c ∈ (runOps (st, log) ops).2 := by
  induction ops with
  | nil => intro st log inv c i w h; exact inv c i w h
  | cons op rest ih =>
    intro st log inv c i w h
    cases op with
    | construct cls =>
      simp only [runOps] at h ⊢
      refine ih _ _ ?_ c i w h
      intro c' i' w' h'
      exact inv c' i' w' (newInstance_lookup_some _ _ _ _ _ h')
    | update cls config validate =>
      simp only [runOps] at h ⊢
      refine ih _ _ ?_ c i w h
      intro c' i' w' h'
      rcases update_instances_lookup validate st cls config c' i' w' h' with
        h1 | ⟨hc, hnone⟩
      · by_cases hn : (update_instances validate st cls config).2 = none
        · simp only [hn, if_pos rfl]
          exact List.mem_append_left _ (inv c' i' w' h1)
        · simp only [if_neg hn]
          exact inv c' i' w' h1
      · rw [hc]
        simp [hnone]

/-- C4 (amended): starting from the empty engine state, an instance whose
field state has been VALIDATED implies that at least one snapshot
application for its class succeeded; direct construction alone can cache
an instance object, but only with no validated field state (see the
counterexample). -/
theorem c4_validated_implies_applied (ops : List SettingsOp) (cid iid : Nat)
    (v : Value)
    (h : lookupA (runOps (initInstState, []) ops).1.instances cid
          = some (iid, some v)) :
    cid ∈ (runOps (initInstState, []) ops).2 := by
  refine runOps_validated_logged ops initInstState [] ?_ cid iid v h
  intro c' i' w' h'
  simp [initInstState, lookupA] at h'

/-- C4 (witness for the amended theorem): one successful application makes
the class appear in the success log. -/
theorem c4_validated_implies_applied_witness :
    lookupA (runOps (initInstState, []) [.update demoCls [("k", "1")] vOracle]).1.instances 0
      = some (0, some [("APOLLO_k", "1")]) ∧
    0 ∈ (runOps (initInstState, []) [.update demoCls [("k", "1")] vOracle]).2 :=
  ⟨rfl, c4_validated_implies_applied [.update demoCls [("k", "1")] vOracle] 0 0
    [("APOLLO_k", "1")] rfl⟩

/-- C8 (confirmed): with a truthy configured secret, a request carries
exactly the two auth headers: Timestamp holding the milliseconds-since-
epoch reading as a decimal string, and Authorization holding
`Apollo {appid}:{sig}` where the signature is
base64(HMAC-SHA1(secret, timestamp + newline + requestPathWithQuery)) - a
deterministic pure function of (timestamp, uri, secret). With no secret
configured (absent, or empty hence falsy) no auth headers are sent. The
last conjunct pins the HMAC-SHA1 embedding to the RFC 2202 test vector. -/
theorem c8_signed_headers (appid path : String) (nowMs : Nat) (sk : String)
    (h : sk ≠ "") :
    headers (some sk) appid path nowMs
      = [("Authorization",
          "Apollo " ++ appid ++ ":" ++ signature (toString nowMs) path sk),
         ("Timestamp", toString nowMs)] ∧
    (∀ t u s, signature t u s
        = base64Encode (hmacSha1 (utf8 s) (utf8 (t ++ "\n" ++ u)))) ∧
    headers none appid path nowMs = [] ∧
    headers (some "") appid path nowMs = [] ∧
    hmacSha1 (utf8 "Jefe") (utf8 "what do ya want for nothing?")
      = [239, 252, 223, 106, 229, 235, 47, 162, 210, 116, 22, 213,
         241, 132, 223, 156, 37, 154, 124, 121] := by
  refine ⟨?_, fun t u s => rfl, rfl, rfl, ?_⟩
  · simp [headers, optTruthy, h]
  · set_option maxRecDepth 10000 in decide

/-- C8 (witness): the signed-header shape at a concrete appid, path,
timestamp and secret. -/
theorem c8_signed_headers_witness :
    ("Jefe" : String) ≠ "" ∧
    headers (some "Jefe") "app" "/configs/app/default/application" 1700000000000
      = [("Authorization",
          "Apollo " ++ "app" ++ ":" ++
            signature (toString 1700000000000) "/configs/app/default/application" "Jefe"),
         ("Timestamp", toString 1700000000000)] :=
  ⟨by decide,
   (c8_signed_headers "app" "/configs/app/default/application" 1700000000000 "Jefe"
     (by decide)).1⟩

/-- Helper: applying a fetch result never touches the stored watermarks. -/
theorem update_metadata_notifications (validate : Validator) (st : SyncState)
    (res : ConfigResp) :
    ((update_metadata validate st res).1).notifications = st.notifications := by
  unfold update_metadata
  cases lookupA st.registered res.namespaceName <;> simp

/-- Helper: applying any list of fetch results never touches the stored
watermarks. -/
theorem applyFetched_notifications (validate : Validator) (st : SyncState)
    (rs : List (Option ConfigResp)) :
    ((applyFetched validate st rs).1).notifications = st.notifications := by
  induction rs generalizing st with
  | nil => rfl
  | cons hd t ih =>
    cases hd with
    | none =>
      simp only [applyFetched]
      exact ih st
    | some res =>
      simp only [applyFetched]
      cases h2 : (update_metadata validate st res).2 with
      | some e => simp [h2, update_metadata_notifications]
      | none => simp [h2, ih, update_metadata_notifications]

/-- C9 (confirmed): in a round whose long poll reports changed namespaces,
the stored watermarks are set to the reported values before the fetches
are issued, and the final watermarks equal exactly those reported values
for EVERY fetch outcome - in particular each advance is retained when the
corresponding fetch comes back "not modified" (none), and also when a
fetch errors or its application fails validation. -/
theorem c9_watermarks_before_fetch (st : SyncState) (r : List Notification)
    (fetch : String → Except ApolloError (Option ConfigResp)) (validate : Validator)
    (h : r ≠ []) :
    (notification_once st ⟨.ok (some r), fetch, validate⟩).1.notifications
      = updateWatermarks st.notifications r := by
  cases r with
  | nil => exact absurd rfl h
  | cons n ns =>
    simp only [notification_once, List.isEmpty_cons, Bool.false_eq_true, if_false]
    split
    · rfl
    · exact applyFetched_notifications _ _ _

/-- C9 (witness): the sentinel watermark -1 for `application` advances to
the reported value 7 although the namespace fetch reports "not modified". -/
theorem c9_watermarks_before_fetch_witness :
    ([⟨"application", 7, "m"⟩] : List Notification) ≠ [] ∧
    (notification_once demoState
        ⟨.ok (some [⟨"application", 7, "m"⟩]), fun _ => .ok none, vOracle⟩).1.notifications
      = updateWatermarks demoState.notifications [⟨"application", 7, "m"⟩] :=
  ⟨by decide,
   c9_watermarks_before_fetch demoState [⟨"application", 7, "m"⟩]
     (fun _ => .ok none) vOracle (by decide)⟩

end Apollo
